import Mathlib

/-!
Shallow embedding of `src/lamplib/src/genny/tasks/auto_tasks.py` (the
auto-task generator of the genny repository), together with theorems
settling the specification claims about it.

Conventions of the embedding:
* Python strings are `String`, Python lists are `List`, Python dicts are
  insertion-ordered association lists `List (String × _)`.
* Parsed YAML documents are values of the inductive type `Yaml`
  (null / scalar string / sequence / mapping).
* Fallible Python code (code that can raise) is embedded in
  `Except String _`; the error string carries the exception class and
  message (e.g. "KeyError: ...", "ValueError: ...").
* The file system (together with the process working directory) is an
  explicit `FileSystem` value; `os.path` helpers are embedded for the
  POSIX path forms the program uses.
* The regex-based case conversion `_to_snake_case` is embedded
  character-by-character, reproducing `re.sub`'s left-to-right
  non-overlapping scan with greedy runs.
-/

/-! ### Character classes of the regexes `[A-Z]`, `[a-z]`, `[0-9]` -/

/-- ASCII range of the regex character class `[A-Z]`. -/
def isUpperA (c : Char) : Bool := 65 ≤ c.toNat && c.toNat ≤ 90

/-- ASCII range of the regex character class `[a-z]`. -/
def isLowerA (c : Char) : Bool := 97 ≤ c.toNat && c.toNat ≤ 122

/-- ASCII range of the regex character class `[0-9]`. -/
def isDigitA (c : Char) : Bool := 48 ≤ c.toNat && c.toNat ≤ 57

/-! ### `Workload._to_snake_case`

`re.sub("(.)([A-Z][a-z]+)", r"\1_\2", s)` scans `s` left to right; at a
match it inserts `_` between the first character and the
uppercase+lowercase-run, consumes the whole match (the greedy `[a-z]+`
run included) and resumes after it.  `sub1Go` reproduces that scan; the
`skip` flag is true while we are still inside the consumed lowercase run
of the previous match (no new match may start there). -/

def sub1Go : Bool → List Char → List Char
  | _, [] => []
  | skip, c :: u :: l2 :: rest2 =>
    if skip && isLowerA c then
      c :: sub1Go true (u :: l2 :: rest2)
    else if c != '\n' && isUpperA u && isLowerA l2 then
      c :: '_' :: u :: sub1Go true (l2 :: rest2)
    else
      c :: sub1Go false (u :: l2 :: rest2)
  | skip, c :: rest =>
    if skip && isLowerA c then
      c :: sub1Go true rest
    else
      c :: rest

/-- Embedding of `re.sub("-", "_", s)`, applied characterwise. -/
def hyphenToUnderscore (c : Char) : Char := if c = '-' then '_' else c

/-- Embedding of `re.sub("([a-z0-9])([A-Z])", r"\1_\2", s)`: the scan
consumes both matched characters and resumes after them. -/
def sub3 : List Char → List Char
  | [] => []
  | [a] => [a]
  | a :: b :: rest =>
    if (isLowerA a || isDigitA a) && isUpperA b then
      a :: '_' :: b :: sub3 rest
    else
      a :: sub3 (b :: rest)

/-- Embedding of Python `str.lower()` on one character (ASCII letters;
the names this program converts are ASCII). -/
def lowerChar (c : Char) : Char :=
  if isUpperA c then Char.ofNat (c.toNat + 32) else c

/-- The three substitutions of `Workload._to_snake_case`, chained, on a
character list. -/
def snakeChars (l : List Char) : List Char :=
  (sub3 ((sub1Go false l).map hyphenToUnderscore)).map lowerChar

/-- Embedding of `Workload._to_snake_case`. -/
def to_snake_case (s : String) : String := String.mk (snakeChars s.data)

/-! ### `os.path` helpers -/

/-- Whether `sep` is an initial segment of `l` (used for Python's
substring-based `str.split`). -/
def matchesAt (sep : List Char) : List Char → Bool
  | [] => sep.isEmpty
  | c :: cs =>
    match sep with
    | [] => true
    | s :: ss => s == c && matchesAt ss cs

/-- Characters of `l` before the first occurrence of `sep`; all of `l`
when `sep` does not occur.  This is `s.split(sep)[0]` in Python. -/
def beforeFirst (sep : List Char) : List Char → List Char
  | [] => []
  | c :: rest => if matchesAt sep (c :: rest) then [] else c :: beforeFirst sep rest

/-- Whether `sep` occurs in `l` (Python `sep in s` on strings). -/
def containsSub (sep : List Char) : List Char → Bool
  | [] => sep.isEmpty
  | c :: rest => matchesAt sep (c :: rest) || containsSub sep rest

/-- Characters after the last `/` (`cur` accumulates the running
segment, reversed). -/
def basenameAux (cur : List Char) : List Char → List Char
  | [] => cur.reverse
  | c :: rest => if c = '/' then basenameAux [] rest else basenameAux (c :: cur) rest

/-- Embedding of `os.path.basename` for POSIX paths. -/
def osPathBasename (p : String) : String := String.mk (basenameAux [] p.data)

/-- Embedding of `str(os.path.basename(p).split(".yml")[0])`: the base
name of the file with everything from the first `.yml` on stripped.
Both `YamlReader.load_set` and `Workload.file_base_name` use this. -/
def stripYml (s : String) : String := String.mk (beforeFirst ".yml".data s.data)

/-- Whether a POSIX path is absolute. -/
def isAbsPath (p : String) : Bool :=
  match p.data with
  | [] => false
  | c :: _ => c = '/'

/-- Whether a path ends in `/`. -/
def endsWithSlash (p : String) : Bool :=
  match p.data.getLast? with
  | some c => c = '/'
  | none => false

/-- Embedding of `os.path.join root p` for POSIX paths: an absolute
second component discards the first; otherwise the components are
joined with a single `/`. -/
def osPathJoin (root : String) (p : String) : String :=
  if isAbsPath p then p
  else if root = "" then p
  else if endsWithSlash root then root ++ p
  else root ++ "/" ++ p

/-! ### Parsed YAML documents -/

/-- Parsed YAML value, as `yaml.safe_load` hands it to the program:
`null`, a scalar (the scalars this program touches are strings), a
sequence, or a mapping with string keys in insertion order. -/
inductive Yaml where
  | null : Yaml
  | str : String → Yaml
  | list : List Yaml → Yaml
  | map : List (String × Yaml) → Yaml
deriving Repr

mutual

/-- Structural equality of YAML values (Python `==` on the parsed
documents). -/
def Yaml.beq : Yaml → Yaml → Bool
  | .null, .null => true
  | .str a, .str b => a == b
  | .list xs, .list ys => Yaml.beqList xs ys
  | .map xs, .map ys => Yaml.beqMap xs ys
  | _, _ => false

/-- Pointwise `Yaml.beq` on sequences. -/
def Yaml.beqList : List Yaml → List Yaml → Bool
  | [], [] => true
  | x :: xs, y :: ys => Yaml.beq x y && Yaml.beqList xs ys
  | _, _ => false

/-- Pointwise `Yaml.beq` on mappings (keys and values in order). -/
def Yaml.beqMap : List (String × Yaml) → List (String × Yaml) → Bool
  | [], [] => true
  | (k1, v1) :: xs, (k2, v2) :: ys => k1 == k2 && Yaml.beq v1 v2 && Yaml.beqMap xs ys
  | _, _ => false

end

/-- Python truthiness of a parsed YAML value (`not x`): `None`, empty
strings, empty lists and empty dicts are falsy. -/
def Yaml.isFalsy : Yaml → Bool
  | .null => true
  | .str s => s.isEmpty
  | .list l => l.isEmpty
  | .map m => m.isEmpty

/-- Python `len(x)` on a parsed YAML value; `None` has no length. -/
def Yaml.pyLen : Yaml → Except String Nat
  | .str s => .ok s.length
  | .list l => .ok l.length
  | .map m => .ok m.length
  | .null => .error "TypeError: object of type NoneType has no len()"

/-- Python `k in x` on a parsed YAML value: key membership for dicts,
element membership for lists, substring for strings. -/
def Yaml.pyContains (y : Yaml) (k : String) : Except String Bool :=
  match y with
  | .map m => .ok (m.any (fun p => p.1 == k))
  | .list l => .ok (l.any (fun e => Yaml.beq e (.str k)))
  | .str s => .ok (containsSub k.data s.data)
  | .null => .error "TypeError: argument of type NoneType is not iterable"

/-- Python `x[k]` with a string key: only dicts support it; a missing
key raises `KeyError`. -/
def Yaml.pySubscript (y : Yaml) (k : String) : Except String Yaml :=
  match y with
  | .map m =>
    match m.lookup k with
    | some v => .ok v
    | none => .error ("KeyError: " ++ k)
  | .list _ => .error ("TypeError: list indices must be integers, not str: " ++ k)
  | .str _ => .error ("TypeError: string indices must be integers, not str: " ++ k)
  | .null => .error ("TypeError: NoneType is not subscriptable: " ++ k)

/-- Python iteration over a parsed YAML value: list elements, the
characters of a string, or the keys of a dict. -/
def Yaml.pyIter : Yaml → Except String (List Yaml)
  | .list xs => .ok xs
  | .str s => .ok (s.data.map (fun c => Yaml.str (String.mk [c])))
  | .map m => .ok (m.map (fun p => Yaml.str p.1))
  | .null => .error "TypeError: NoneType object is not iterable"

/-! ### `YamlReader` and the file system

The program's file I/O is embedded as an explicit `FileSystem` value:
`contents` maps a fully resolved path to the parsed YAML document of the
file there (or `none` when no such file exists), and `cwd` is the
process working directory against which `os.path` resolves relative
paths. -/

/-- File system state seen by one invocation of the program. -/
structure FileSystem where
  cwd : String
  contents : String → Option Yaml

/-- Document at path `p`, after resolving `p` against the working
directory the way `open`/`os.path.exists` do. -/
def FileSystem.resolve (fs : FileSystem) (p : String) : Option Yaml :=
  fs.contents (osPathJoin fs.cwd p)

namespace YamlReader

/-- Embedding of `YamlReader.load`: join the workspace root and the
relative path, fail when no file is there, parse otherwise. -/
def load (fs : FileSystem) (workspace_root : String) (path : String) : Except String Yaml :=
  let joined := osPathJoin workspace_root path
  match fs.resolve joined with
  | none => .error ("File " ++ joined ++ " not found.")
  | some doc => .ok doc

/-- Embedding of `YamlReader.exists`: `os.path.exists` on the path as
given (resolved against the working directory, not the workspace root). -/
def existsPath (fs : FileSystem) (path : String) : Bool :=
  (fs.resolve path).isSome

/-- Python dict insertion `out[k] = v`: replace in place when the key is
present, append otherwise. -/
def dictInsert (m : List (String × Yaml)) (k : String) (v : Yaml) : List (String × Yaml) :=
  if m.any (fun p => p.1 == k) then m.map (fun p => if p.1 == k then (k, v) else p)
  else m ++ [(k, v)]

/-- Loop body of `YamlReader.load_set`: load each surviving file and key
it by its base name with the `.yml` extension stripped. -/
def load_set_aux (fs : FileSystem) (workspace_root : String)
    (out : List (String × Yaml)) : List String → Except String (List (String × Yaml))
  | [] => .ok out
  | f :: rest => do
    let doc ← load fs workspace_root f
    load_set_aux fs workspace_root (dictInsert out (stripYml (osPathBasename f)) doc) rest

/-- Embedding of `YamlReader.load_set`: filter the input paths to those
that exist, then load each and key it by stripped base name. -/
def load_set (fs : FileSystem) (workspace_root : String) (files : List String) :
    Except String (List (String × Yaml)) :=
  load_set_aux fs workspace_root [] (files.filter (fun f => existsPath fs f))

end YamlReader

/-! ### `OpName` and `CLIOperation` -/

/-- The three invocation modes. -/
inductive OpName where
  | ALL_TASKS : OpName
  | VARIANT_TASKS : OpName
  | PATCH_TASKS : OpName
deriving Repr, DecidableEq

/-- Embedding of the `CLIOperation` named tuple.  The `variant` field
holds the raw `build_variant` expansion value when one was read. -/
structure CLIOperation where
  mode : OpName
  variant : Option Yaml
  genny_repo_root : String
  workspace_root : String
deriving Repr

/-- Embedding of `CLIOperation.create`: three sequential `if`s over the
mode token; the patch and variant branches read `build_variant` from the
workspace's `expansions.yml`. -/
def CLIOperation.create (mode_name : String) (fs : FileSystem)
    (genny_repo_root : String) (workspace_root : String) : Except String CLIOperation := do
  let mode := OpName.ALL_TASKS
  let variant : Option Yaml := none
  let (mode, variant) :=
    if mode_name == "all_tasks" then (OpName.ALL_TASKS, variant) else (mode, variant)
  let (mode, variant) ←
    if mode_name == "patch_tasks" then do
      let doc ← YamlReader.load fs workspace_root "expansions.yml"
      let v ← doc.pySubscript "build_variant"
      pure (OpName.PATCH_TASKS, some v)
    else
      pure (mode, variant)
  let (mode, variant) ←
    if mode_name == "variant_tasks" then do
      let doc ← YamlReader.load fs workspace_root "expansions.yml"
      let v ← doc.pySubscript "build_variant"
      pure (OpName.VARIANT_TASKS, some v)
    else
      pure (mode, variant)
  pure ⟨mode, variant, genny_repo_root, workspace_root⟩

/-! ### `CurrentBuildInfo` -/

/-- Embedding of `CurrentBuildInfo`: the mapping parsed from the
workspace's `expansions.yml`. -/
structure CurrentBuildInfo where
  conts : List (String × Yaml)

/-- Embedding of the `CurrentBuildInfo` constructor, which loads
`expansions.yml` from the workspace root (the loaded expansions document
is a mapping). -/
def CurrentBuildInfo.init (fs : FileSystem) (workspace_root : String) :
    Except String CurrentBuildInfo := do
  let doc ← YamlReader.load fs workspace_root "expansions.yml"
  match doc with
  | .map m => .ok ⟨m⟩
  | _ => .error "TypeError: expansions document is not a mapping"

/-- Embedding of `CurrentBuildInfo.has`: raise on an unknown key (the
message names the key and the known keys), otherwise report whether the
current value equals any acceptable value. -/
def CurrentBuildInfo.has (b : CurrentBuildInfo) (key : String) (acceptable_values : Yaml) :
    Except String Bool :=
  match b.conts.lookup key with
  | none =>
    .error ("Unknown key " ++ key ++ ". Know about "
      ++ String.intercalate ", " (b.conts.map Prod.fst))
  | some actual => do
    let vs ← acceptable_values.pyIter
    .ok (vs.any (fun v => Yaml.beq actual v))

/-! ### `GeneratedTask` and `Workload` -/

/-- Embedding of the `GeneratedTask` named tuple.  The back reference to
the owning `Workload` object is embedded as the owning workload's file
path (the only workload attribute the program reads through it). -/
structure GeneratedTask where
  name : String
  mongodb_setup : Option String
  workload_path : String
deriving Repr, DecidableEq

/-- Embedding of a constructed `Workload` object: `requires` and
`setups` are the raw YAML values assigned by `__init__` (`None` when the
corresponding key was absent). -/
structure Workload where
  file_path : String
  is_modified : Bool
  requires : Option Yaml := none
  setups : Option Yaml := none
deriving Repr

/-- Embedding of the body of `Workload.__init__` after the YAML file has
been parsed to `conts`: absent `AutoRun` leaves `requires` and `setups`
at `None`; a present block makes `Requires` mandatory (bare subscript)
and validates that a present `PrepareEnvironmentWith` has exactly one
entry under the key `mongodb_setup` (the value itself is assigned
unchecked). -/
def Workload.ofContents (file_path : String) (is_modified : Bool) (conts : Yaml) :
    Except String Workload := do
  let hasAuto ← conts.pyContains "AutoRun"
  if !hasAuto then
    pure { file_path := file_path, is_modified := is_modified }
  else do
    let auto_run ← conts.pySubscript "AutoRun"
    let req ← auto_run.pySubscript "Requires"
    let hasPrep ← auto_run.pyContains "PrepareEnvironmentWith"
    if hasPrep then do
      let prep ← auto_run.pySubscript "PrepareEnvironmentWith"
      let n ← prep.pyLen
      if n != 1 then
        Except.error ("ValueError: Need exactly mongodb_setup: [list] "
          ++ "in PrepareEnvironmentWith for file " ++ file_path)
      else do
        let hasKey ← prep.pyContains "mongodb_setup"
        if !hasKey then
          Except.error ("ValueError: Need exactly mongodb_setup: [list] "
            ++ "in PrepareEnvironmentWith for file " ++ file_path)
        else do
          let setups ← prep.pySubscript "mongodb_setup"
          pure { file_path := file_path, is_modified := is_modified,
                 requires := some req, setups := some setups }
    else
      pure { file_path := file_path, is_modified := is_modified, requires := some req }

/-- Embedding of `Workload.__init__`: parse the workload's file (via the
reader, relative to the workspace root), then build the object. -/
def Workload.init (fs : FileSystem) (workspace_root : String) (file_path : String)
    (is_modified : Bool) : Except String Workload := do
  let conts ← YamlReader.load fs workspace_root file_path
  Workload.ofContents file_path is_modified conts

/-- Embedding of the `Workload.file_base_name` property. -/
def Workload.file_base_name (w : Workload) : String :=
  stripYml (osPathBasename w.file_path)

/-- One setup element as the string `_to_snake_case` expects (`re.sub`
raises `TypeError` on anything that is not string-like). -/
def strOfYaml : Yaml → Except String String
  | Yaml.str s => Except.ok s
  | _ => Except.error "TypeError: expected string or bytes-like object"

/-- Embedding of the comprehension in `Workload.all_tasks`: one
`GeneratedTask` per setup element, named snake-cased base name, `_`,
snake-cased setup. -/
def tasksOfSetups (base : String) (wpath : String) : List Yaml → Except String (List GeneratedTask)
  | [] => .ok []
  | e :: rest => do
    let s ← strOfYaml e
    let rest2 ← tasksOfSetups base wpath rest
    .ok (⟨base ++ "_" ++ to_snake_case s, some s, wpath⟩ :: rest2)

/-- Embedding of `Workload.all_tasks`: one task per declared setup
(snake-cased base name, `_`, snake-cased setup), or a single bare task
when no setup list was declared. -/
def Workload.all_tasks (w : Workload) : Except String (List GeneratedTask) :=
  let base := to_snake_case w.file_base_name
  match w.setups with
  | none => .ok [⟨base, none, w.file_path⟩]
  | some y => do
    let elems ← y.pyIter
    tasksOfSetups base w.file_path elems

/-- Loop of the `meets_criteria` closure inside `Workload.variant_tasks`:
every requirement pair is evaluated against `build.has` (no short
circuit), and `okay` accumulates the conjunction. -/
def meetsCriteriaAux (build : CurrentBuildInfo) (okay : Bool) :
    List (String × Yaml) → Except String Bool
  | [] => .ok okay
  | (key, acceptable_values) :: rest => do
    let h ← build.has key acceptable_values
    meetsCriteriaAux build (okay && h) rest

/-- Embedding of one call of `meets_criteria()`: iterate
`self.requires.items()` (an `AttributeError` when `requires` is not a
mapping). -/
def criteriaCheck (req : Yaml) (build : CurrentBuildInfo) : Except String Bool :=
  match req with
  | .map items => meetsCriteriaAux build true items
  | _ => .error "AttributeError: object has no attribute items"

/-- Embedding of the comprehension
`[task for task in tasks if meets_criteria()]`: the condition is
re-evaluated once per task. -/
def selectIf (cond : Except String Bool) : List GeneratedTask → Except String (List GeneratedTask)
  | [] => .ok []
  | t :: ts => do
    let b ← cond
    let rest ← selectIf cond ts
    .ok (if b then t :: rest else rest)

/-- Embedding of `Workload.variant_tasks`: a falsy `requires` (absent,
`None`, or an empty rule set) yields no tasks; otherwise `all_tasks()`
is filtered by `meets_criteria()`. -/
def Workload.variant_tasks (w : Workload) (build : CurrentBuildInfo) :
    Except String (List GeneratedTask) :=
  match w.requires with
  | none => .ok []
  | some req =>
    if req.isFalsy then .ok []
    else do
      let tasks ← w.all_tasks
      selectIf (criteriaCheck req build) tasks

/-! ### `Repo`

`Repo.all_workloads` constructs one `Workload` per file found by the
`WorkloadLister` (file-system globbing plus a `git diff` subprocess for
the modified set).  That listing is pure I/O outside the program's
logic; the embedding takes the resulting workload list as the state of
a `Repo` value, with each workload's `is_modified` flag already carried
forward. -/

/-- A repository, as the list of workloads `Repo.all_workloads`
produces. -/
structure Repo where
  all_workloads : List Workload

/-- Embedding of `Repo.modified_workloads`. -/
def Repo.modified_workloads (r : Repo) : List Workload :=
  r.all_workloads.filter (fun w => w.is_modified)

/-- Embedding of the comprehension
`[task for workload in ws for task in workload.all_tasks()]`. -/
def tasksOfWorkloads : List Workload → Except String (List GeneratedTask)
  | [] => .ok []
  | w :: ws => do
    let ts ← w.all_tasks
    let rest ← tasksOfWorkloads ws
    .ok (ts ++ rest)

/-- Embedding of the comprehension
`[task for workload in ws for task in workload.variant_tasks(build)]`. -/
def variantTasksOfWorkloads (build : CurrentBuildInfo) :
    List Workload → Except String (List GeneratedTask)
  | [] => .ok []
  | w :: ws => do
    let ts ← w.variant_tasks build
    let rest ← variantTasksOfWorkloads build ws
    .ok (ts ++ rest)

/-- Embedding of `Repo.all_tasks`. -/
def Repo.all_tasks (r : Repo) : Except String (List GeneratedTask) :=
  tasksOfWorkloads r.all_workloads

/-- Embedding of `Repo.variant_tasks`. -/
def Repo.variant_tasks (r : Repo) (build : CurrentBuildInfo) :
    Except String (List GeneratedTask) :=
  variantTasksOfWorkloads build r.all_workloads

/-- Embedding of `Repo.patch_tasks`: all tasks of the modified
workloads, with no requirement filtering. -/
def Repo.patch_tasks (r : Repo) : Except String (List GeneratedTask) :=
  tasksOfWorkloads r.modified_workloads

/-- Embedding of `Repo.tasks`: dispatch on the operation mode (the
`else: raise` branch of the source is unreachable over the closed
three-value enum). -/
def Repo.tasks (r : Repo) (op : CLIOperation) (build : CurrentBuildInfo) :
    Except String (List GeneratedTask) :=
  match op.mode with
  | OpName.ALL_TASKS => r.all_tasks
  | OpName.PATCH_TASKS => r.patch_tasks
  | OpName.VARIANT_TASKS => r.variant_tasks build

/-! ### Lemmas about the case conversion -/

/-- Every character the first substitution emits is a character of its
input or an inserted `_`. -/
theorem mem_sub1Go {a : Char} :
    ∀ (skip : Bool) (l : List Char), a ∈ sub1Go skip l → a ∈ l ∨ a = '_' := by
  intro skip l
  induction skip, l using sub1Go.induct with
  | case1 => simp [sub1Go]
  | case2 skip c u l2 rest2 h ih =>
    simp only [sub1Go, h, if_true]
    intro hm
    rcases List.mem_cons.mp hm with h1 | h2
    · exact Or.inl (by simp [h1])
    · rcases ih h2 with h3 | h4
      · exact Or.inl (List.mem_cons_of_mem _ h3)
      · exact Or.inr h4
  | case3 skip c u l2 rest2 h1 h2 ih =>
    simp only [sub1Go, h1, h2, Bool.false_eq_true, if_false, if_true]
    intro hm
    simp only [List.mem_cons] at hm ⊢
    rcases hm with h | h | h | h
    · exact Or.inl (Or.inl h)
    · exact Or.inr h
    · exact Or.inl (Or.inr (Or.inl h))
    · rcases ih (by simpa using h) with h3 | h4
      · simp only [List.mem_cons] at h3
        exact Or.inl (by tauto)
      · exact Or.inr h4
  | case4 skip c u l2 rest2 h1 h2 ih =>
    simp only [sub1Go, h1, h2, Bool.false_eq_true, if_false]
    intro hm
    rcases List.mem_cons.mp hm with h | h
    · exact Or.inl (by simp [h])
    · rcases ih h with h3 | h4
      · exact Or.inl (List.mem_cons_of_mem _ h3)
      · exact Or.inr h4
  | case5 skip c rest hshape h ih =>
    simp only [sub1Go]
    rw [if_pos h]
    intro hm
    rcases List.mem_cons.mp hm with h1 | h2
    · exact Or.inl (by simp [h1])
    · rcases ih h2 with h3 | h4
      · exact Or.inl (List.mem_cons_of_mem _ h3)
      · exact Or.inr h4
  | case6 skip c rest hshape h =>
    simp only [sub1Go]
    rw [if_neg h]
    exact fun hm => Or.inl hm

/-- On input without regex-uppercase characters the first substitution
is the identity. -/
theorem sub1Go_of_noUpper :
    ∀ (skip : Bool) (l : List Char), (∀ c ∈ l, isUpperA c = false) → sub1Go skip l = l := by
  intro skip l
  induction skip, l using sub1Go.induct with
  | case1 => simp [sub1Go]
  | case2 skip c u l2 rest2 h ih =>
    intro hn
    simp only [sub1Go, h, if_true]
    rw [ih (fun x hx => hn x (List.mem_cons_of_mem _ hx))]
  | case3 skip c u l2 rest2 h1 h2 ih =>
    intro hn
    exfalso
    have hu : isUpperA u = false := hn u (by simp)
    simp only [Bool.and_eq_true] at h2
    rw [hu] at h2
    simp at h2
  | case4 skip c u l2 rest2 h1 h2 ih =>
    intro hn
    simp only [sub1Go, h1, Bool.false_eq_true, if_false, h2]
    rw [ih (fun x hx => hn x (List.mem_cons_of_mem _ hx))]
  | case5 skip c rest hshape h ih =>
    intro hn
    simp only [sub1Go]
    rw [if_pos h, ih (fun x hx => hn x (List.mem_cons_of_mem _ hx))]
  | case6 skip c rest hshape h =>
    intro hn
    simp only [sub1Go]
    rw [if_neg h]

/-- Every character the third substitution emits is a character of its
input or an inserted `_`. -/
theorem mem_sub3 {a : Char} : ∀ l : List Char, a ∈ sub3 l → a ∈ l ∨ a = '_' := by
  intro l
  induction l using sub3.induct with
  | case1 => simp [sub3]
  | case2 x =>
    simp [sub3]
    tauto
  | case3 x b rest h ih =>
    simp only [sub3, h, if_true]
    intro hm
    simp only [List.mem_cons] at hm ⊢
    rcases hm with h1 | h1 | h1 | h1
    · exact Or.inl (Or.inl h1)
    · exact Or.inr h1
    · exact Or.inl (Or.inr (Or.inl h1))
    · rcases ih h1 with h3 | h4
      · exact Or.inl (Or.inr (Or.inr h3))
      · exact Or.inr h4
  | case4 x b rest h ih =>
    simp only [sub3, h, Bool.false_eq_true, if_false]
    intro hm
    rcases List.mem_cons.mp hm with h1 | h1
    · exact Or.inl (by simp [h1])
    · rcases ih h1 with h3 | h4
      · exact Or.inl (List.mem_cons_of_mem _ h3)
      · exact Or.inr h4

/-- On input without regex-uppercase characters the third substitution
is the identity. -/
theorem sub3_of_noUpper :
    ∀ l : List Char, (∀ c ∈ l, isUpperA c = false) → sub3 l = l := by
  intro l
  induction l using sub3.induct with
  | case1 => simp [sub3]
  | case2 x => simp [sub3]
  | case3 x b rest h ih =>
    intro hn
    exfalso
    have hb : isUpperA b = false := hn b (by simp)
    simp only [Bool.and_eq_true] at h
    rw [hb] at h
    simp at h
  | case4 x b rest h ih =>
    intro hn
    simp only [sub3, h, Bool.false_eq_true, if_false]
    rw [ih (fun x hx => hn x (List.mem_cons_of_mem _ hx))]

/-- On input without hyphens the second substitution is the identity. -/
theorem map_hyphen_of_noHyphen :
    ∀ l : List Char, (∀ c ∈ l, c ≠ '-') → l.map hyphenToUnderscore = l := by
  intro l
  induction l with
  | nil => simp
  | cons c rest ih =>
    intro hn
    simp only [List.map_cons]
    rw [ih (fun x hx => hn x (List.mem_cons_of_mem _ hx))]
    have : hyphenToUnderscore c = c := by
      simp only [hyphenToUnderscore]
      rw [if_neg (hn c (by simp))]
    rw [this]

/-- Lowercasing leaves a character that is not regex-uppercase
unchanged. -/
theorem lowerChar_of_notUpper {c : Char} (h : isUpperA c = false) : lowerChar c = c := by
  simp only [lowerChar]
  rw [h]
  simp

/-- Lowercasing a regex-uppercase character lands in the regex-lowercase
code-point range. -/
theorem lowerChar_toNat_of_upper {c : Char} (h : isUpperA c = true) :
    97 ≤ (lowerChar c).toNat ∧ (lowerChar c).toNat ≤ 122 := by
  simp only [lowerChar, h, if_true]
  simp only [isUpperA, Bool.and_eq_true, decide_eq_true_eq] at h
  obtain ⟨h1, h2⟩ := h
  set m := c.toNat with hm
  interval_cases m <;> exact ⟨by decide, by decide⟩

/-- The output of `lowerChar` is never regex-uppercase. -/
theorem isUpperA_lowerChar (c : Char) : isUpperA (lowerChar c) = false := by
  cases hu : isUpperA c with
  | false => rw [lowerChar_of_notUpper hu]; exact hu
  | true =>
    obtain ⟨h1, _⟩ := lowerChar_toNat_of_upper hu
    simp only [isUpperA, Bool.and_eq_false_iff, decide_eq_false_iff_not]
    right
    omega

/-- Lowercasing a regex-uppercase character yields a regex-lowercase
one. -/
theorem isLowerA_lowerChar_of_upper {c : Char} (h : isUpperA c = true) :
    isLowerA (lowerChar c) = true := by
  obtain ⟨h1, h2⟩ := lowerChar_toNat_of_upper h
  simp only [isLowerA, Bool.and_eq_true, decide_eq_true_eq]
  exact ⟨h1, h2⟩

/-- Lowercasing never produces a hyphen from a non-hyphen. -/
theorem lowerChar_ne_hyphen {c : Char} (h : c ≠ '-') : lowerChar c ≠ '-' := by
  cases hu : isUpperA c with
  | false => rw [lowerChar_of_notUpper hu]; exact h
  | true =>
    obtain ⟨h1, _⟩ := lowerChar_toNat_of_upper hu
    intro he
    rw [he] at h1
    simp at h1

/-- On input without regex-uppercase characters, lowercasing is the
identity. -/
theorem map_lowerChar_of_noUpper :
    ∀ l : List Char, (∀ c ∈ l, isUpperA c = false) → l.map lowerChar = l := by
  intro l
  induction l with
  | nil => simp
  | cons c rest ih =>
    intro hn
    simp only [List.map_cons]
    rw [lowerChar_of_notUpper (hn c (by simp)), ih (fun x hx => hn x (List.mem_cons_of_mem _ hx))]

/-- No character of a snake-cased list is regex-uppercase. -/
theorem snakeChars_noUpper (l : List Char) : ∀ c ∈ snakeChars l, isUpperA c = false := by
  intro c hc
  simp only [snakeChars, List.mem_map] at hc
  obtain ⟨d, _, hd2⟩ := hc
  rw [← hd2]
  exact isUpperA_lowerChar d

/-- No character of a snake-cased list is a hyphen. -/
theorem snakeChars_noHyphen (l : List Char) : ∀ c ∈ snakeChars l, c ≠ '-' := by
  intro c hc
  simp only [snakeChars, List.mem_map] at hc
  obtain ⟨d, hd1, hd2⟩ := hc
  rcases mem_sub3 _ hd1 with hd3 | hd3
  · simp only [List.mem_map] at hd3
    obtain ⟨e, _, he2⟩ := hd3
    have : d ≠ '-' := by
      rw [← he2]
      simp only [hyphenToUnderscore]
      split
      · decide
      · assumption
    rw [← hd2]
    exact lowerChar_ne_hyphen this
  · rw [← hd2, hd3]
    decide

/-- The embedded `_to_snake_case` is idempotent on every input. -/
theorem snakeChars_idem (l : List Char) : snakeChars (snakeChars l) = snakeChars l := by
  have noUp := snakeChars_noUpper l
  have noHy := snakeChars_noHyphen l
  have h1 : sub1Go false (snakeChars l) = snakeChars l := sub1Go_of_noUpper _ _ noUp
  conv_lhs => rw [snakeChars, h1]
  rw [map_hyphen_of_noHyphen _ noHy, sub3_of_noUpper _ noUp, map_lowerChar_of_noUpper _ noUp]

/-- A regex-lowercase character is not regex-uppercase. -/
theorem isUpperA_of_isLowerA {c : Char} (h : isLowerA c = true) : isUpperA c = false := by
  simp only [isLowerA, Bool.and_eq_true, decide_eq_true_eq] at h
  simp only [isUpperA, Bool.and_eq_false_iff, decide_eq_false_iff_not]
  omega

/-- A regex-digit character is not regex-uppercase. -/
theorem isUpperA_of_isDigitA {c : Char} (h : isDigitA c = true) : isUpperA c = false := by
  simp only [isDigitA, Bool.and_eq_true, decide_eq_true_eq] at h
  simp only [isUpperA, Bool.and_eq_false_iff, decide_eq_false_iff_not]
  omega

/-- Snake-casing a list of letters, digits and hyphens yields only
regex-lowercase letters, digits and underscores. -/
theorem snakeChars_charset (l : List Char)
    (h : ∀ c ∈ l, isUpperA c = true ∨ isLowerA c = true ∨ isDigitA c = true ∨ c = '-') :
    ∀ c ∈ snakeChars l, isLowerA c = true ∨ isDigitA c = true ∨ c = '_' := by
  intro c hc
  simp only [snakeChars, List.mem_map] at hc
  obtain ⟨d, hd1, hd2⟩ := hc
  have hd : isUpperA d = true ∨ isLowerA d = true ∨ isDigitA d = true ∨ d = '_' := by
    rcases mem_sub3 _ hd1 with hd3 | hd3
    · simp only [List.mem_map] at hd3
      obtain ⟨e, he1, he2⟩ := hd3
      by_cases heh : e = '-'
      · right; right; right
        rw [← he2, heh]
        decide
      · have hde : d = e := by
          rw [← he2]
          simp only [hyphenToUnderscore]
          rw [if_neg heh]
        rcases mem_sub1Go _ _ he1 with he3 | he3
        · rcases h e he3 with h4 | h4 | h4 | h4
          · left; rw [hde]; exact h4
          · right; left; rw [hde]; exact h4
          · right; right; left; rw [hde]; exact h4
          · exact absurd h4 heh
        · right; right; right
          rw [hde, he3]
    · right; right; right
      exact hd3
  rw [← hd2]
  rcases hd with h4 | h4 | h4 | h4
  · left; exact isLowerA_lowerChar_of_upper h4
  · left
    rw [lowerChar_of_notUpper (isUpperA_of_isLowerA h4)]
    exact h4
  · right; left
    rw [lowerChar_of_notUpper (isUpperA_of_isDigitA h4)]
    exact h4
  · right; right
    rw [h4]
    decide

/-! ### Lemmas about requirement filtering and lookups -/

/-- A comprehension whose condition computes `True` keeps every task. -/
theorem selectIf_ok_true (ts : List GeneratedTask) : selectIf (.ok true) ts = .ok ts := by
  induction ts with
  | nil => rfl
  | cons t ts ih =>
    simp only [selectIf, ih]
    rfl

/-- A comprehension whose condition computes `False` keeps no task. -/
theorem selectIf_ok_false (ts : List GeneratedTask) : selectIf (.ok false) ts = .ok [] := by
  induction ts with
  | nil => rfl
  | cons t ts ih =>
    simp only [selectIf, ih]
    rfl

/-- Bind on a successful `Except` computation runs the continuation. -/
theorem except_bind_ok {α β : Type} (a : α) (f : α → Except String β) :
    (Except.ok a >>= f) = f a := rfl

/-- Bind on a raised `Except` computation propagates the error. -/
theorem except_bind_error {α β : Type} (e : String) (f : α → Except String β) :
    ((Except.error e : Except String α) >>= f) = Except.error e := rfl

/-- When every requirement check answers without raising, the
`meets_criteria` loop returns the accumulated conjunction: `okay`
conjoined with one boolean that is true exactly when every pair is
satisfied. -/
theorem meetsCriteriaAux_total (build : CurrentBuildInfo) (items : List (String × Yaml))
    (h : ∀ kv ∈ items, ∃ b, build.has kv.1 kv.2 = .ok b) :
    ∀ okay : Bool, ∃ r : Bool, meetsCriteriaAux build okay items = .ok (okay && r) ∧
      (r = true ↔ ∀ kv ∈ items, build.has kv.1 kv.2 = .ok true) := by
  induction items with
  | nil =>
    intro okay
    refine ⟨true, ?_, by simp⟩
    rw [Bool.and_true]
    rfl
  | cons kv rest ih =>
    intro okay
    obtain ⟨b, hb⟩ := h kv (by simp)
    obtain ⟨r, hr1, hr2⟩ := ih (fun x hx => h x (List.mem_cons_of_mem _ hx)) (okay && b)
    refine ⟨b && r, ?_, ?_⟩
    · obtain ⟨k, vs⟩ := kv
      simp only [meetsCriteriaAux]
      rw [hb, except_bind_ok, hr1, Bool.and_assoc]
    · constructor
      · intro hbr
        simp only [Bool.and_eq_true] at hbr
        intro x hx
        rcases List.mem_cons.mp hx with h1 | h1
        · rw [h1, hb, hbr.1]
        · exact (hr2.mp hbr.2) x h1
      · intro hall
        have h1 : b = true := by
          have := hall kv (by simp)
          rw [hb] at this
          exact (Except.ok.injEq _ _).mp this
        have h2 : r = true := hr2.mpr (fun x hx => hall x (List.mem_cons_of_mem _ hx))
        rw [h1, h2]
        rfl

/-- A successful association-list lookup means the key test of
`Python`'s `in` succeeds. -/
theorem any_key_of_lookup_some {m : List (String × Yaml)} {k : String} {v : Yaml}
    (h : m.lookup k = some v) : m.any (fun p => p.1 == k) = true := by
  induction m with
  | nil => simp [List.lookup] at h
  | cons p rest ih =>
    simp only [List.lookup] at h
    cases hk : k == p.1 with
    | true =>
      simp only [List.any_cons, Bool.or_eq_true]
      left
      simp only [beq_iff_eq] at hk ⊢
      exact hk.symm
    | false =>
      simp only [hk] at h
      simp only [List.any_cons, Bool.or_eq_true]
      right
      exact ih h

/-- A failed association-list lookup means the key test of Python's
`in` fails. -/
theorem any_key_of_lookup_none {m : List (String × Yaml)} {k : String}
    (h : m.lookup k = none) : m.any (fun p => p.1 == k) = false := by
  induction m with
  | nil => simp
  | cons p rest ih =>
    simp only [List.lookup] at h
    cases hk : k == p.1 with
    | true =>
      simp only [hk] at h
      exact absurd h (by simp)
    | false =>
      simp only [hk] at h
      simp only [List.any_cons, Bool.or_eq_false_iff]
      constructor
      · simp only [beq_eq_false_iff_ne, ne_eq]
        intro he
        rw [he] at hk
        simp at hk
      · exact ih h

/-! ### Claim C7 -/

/-- C7: for every workload base name made of (upper or lower case)
letters, digits and hyphens, `_to_snake_case` is idempotent — applying
it to its own output returns that output unchanged — and its output
contains only lowercase letters, digits and underscores. -/
theorem C7_to_snake_case_idempotent_and_charset (s : String)
    (h : ∀ c ∈ s.data, isUpperA c = true ∨ isLowerA c = true ∨ isDigitA c = true ∨ c = '-') :
    to_snake_case (to_snake_case s) = to_snake_case s ∧
    ∀ c ∈ (to_snake_case s).data, isLowerA c = true ∨ isDigitA c = true ∨ c = '_' := by
  constructor
  · show String.mk (snakeChars (snakeChars s.data)) = String.mk (snakeChars s.data)
    rw [snakeChars_idem]
  · show ∀ c ∈ snakeChars s.data, isLowerA c = true ∨ isDigitA c = true ∨ c = '_'
    exact snakeChars_charset s.data h

/-- Witness for C7 at the CamelCase-with-hyphen-and-acronym base name
`My-WorkloadYCSB01`: the hypothesis holds there, the conversion (which
computes to `my__workload_ycsb01`) is idempotent there, and its output
stays in the lowercase/digit/underscore alphabet. -/
theorem C7_witness :
    (∀ c ∈ ("My-WorkloadYCSB01" : String).data,
      isUpperA c = true ∨ isLowerA c = true ∨ isDigitA c = true ∨ c = '-') ∧
    (to_snake_case (to_snake_case "My-WorkloadYCSB01") = to_snake_case "My-WorkloadYCSB01" ∧
     ∀ c ∈ (to_snake_case "My-WorkloadYCSB01").data,
       isLowerA c = true ∨ isDigitA c = true ∨ c = '_') :=
  ⟨by decide, C7_to_snake_case_idempotent_and_charset "My-WorkloadYCSB01" (by decide)⟩

/-! ### Claim C5 -/

/-- On a list of string setups the task comprehension succeeds and
produces one task per setup, in order. -/
theorem tasksOfSetups_strings (base : String) (wpath : String) (setups : List String) :
    tasksOfSetups base wpath (setups.map Yaml.str) =
      .ok (setups.map (fun s =>
        (⟨base ++ "_" ++ to_snake_case s, some s, wpath⟩ : GeneratedTask))) := by
  induction setups with
  | nil => rfl
  | cons s rest ih =>
    simp only [List.map_cons, tasksOfSetups, strOfYaml, except_bind_ok]
    rw [ih, except_bind_ok]

/-- C5: a workload that declares a setup list gets one task per setup
identifier, named snake-cased file base name, `_`, snake-cased setup
identifier, in the setup list's declaration order. -/
theorem C5_all_tasks_per_setup (w : Workload) (setups : List String)
    (h : w.setups = some (Yaml.list (setups.map Yaml.str))) :
    w.all_tasks = .ok (setups.map (fun s =>
      ⟨to_snake_case w.file_base_name ++ "_" ++ to_snake_case s, some s, w.file_path⟩)) := by
  simp only [Workload.all_tasks, h, Yaml.pyIter, except_bind_ok]
  exact tasksOfSetups_strings _ _ setups

/-- Workload object parsed from `src/workloads/scale/MyWorkload.yml`
with setups `["a", "b"]`, for the C5 witness. -/
def exampleWorkloadC5 : Workload :=
  { file_path := "src/workloads/scale/MyWorkload.yml"
    is_modified := false
    requires := some (Yaml.map [("mongodb_setup", Yaml.list [Yaml.str "a", Yaml.str "b"])])
    setups := some (Yaml.list [Yaml.str "a", Yaml.str "b"]) }

/-- Witness for C5: base name `MyWorkload` with setups `["a","b"]`
yields exactly `[("my_workload_a","a"), ("my_workload_b","b")]` in that
order. -/
theorem C5_witness :
    exampleWorkloadC5.setups = some (Yaml.list (["a", "b"].map Yaml.str)) ∧
    exampleWorkloadC5.all_tasks = .ok
      [⟨"my_workload_a", some "a", "src/workloads/scale/MyWorkload.yml"⟩,
       ⟨"my_workload_b", some "b", "src/workloads/scale/MyWorkload.yml"⟩] :=
  ⟨rfl, (C5_all_tasks_per_setup exampleWorkloadC5 ["a", "b"] rfl).trans rfl⟩

/-! ### Claim C4 -/

/-- C4: a workload whose YAML document has no top-level `AutoRun` key
constructs with `requires` and `setups` both absent; `all_tasks()` is
then exactly one task named the snake-case of the file base name with
no setup identifier, and `variant_tasks(build)` is empty for every
build context. -/
theorem C4_no_autorun_single_task (fp : String) (im : Bool) (conts : Yaml)
    (build : CurrentBuildInfo) (h : conts.pyContains "AutoRun" = .ok false) :
    ∃ w, Workload.ofContents fp im conts = .ok w ∧
      w.all_tasks = .ok [⟨to_snake_case (stripYml (osPathBasename fp)), none, fp⟩] ∧
      w.variant_tasks build = .ok [] := by
  refine ⟨{ file_path := fp, is_modified := im }, ?_, rfl, rfl⟩
  simp only [Workload.ofContents, h, except_bind_ok]
  rfl

/-- Witness for C4 at the document `{Clients: Default}` parsed from
`src/workloads/docs/HelloWorld.yml`: construction succeeds, the single
task computes to `hello_world` with no setup, and variant tasks are
empty under the empty build context. -/
theorem C4_witness :
    (Yaml.map [("Clients", Yaml.str "Default")]).pyContains "AutoRun" = .ok false ∧
    ∃ w, Workload.ofContents "src/workloads/docs/HelloWorld.yml" false
        (Yaml.map [("Clients", Yaml.str "Default")]) = .ok w ∧
      w.all_tasks = .ok [⟨"hello_world", none, "src/workloads/docs/HelloWorld.yml"⟩] ∧
      w.variant_tasks ⟨[]⟩ = .ok [] := by
  refine ⟨rfl, ?_⟩
  obtain ⟨w, h1, h2, h3⟩ := C4_no_autorun_single_task "src/workloads/docs/HelloWorld.yml" false
    (Yaml.map [("Clients", Yaml.str "Default")]) ⟨[]⟩ rfl
  exact ⟨w, h1, h2.trans rfl, h3⟩

/-! ### Claim C6 -/

/-- C6: `has(key, acceptableValues)` raises an error naming the unknown
key whenever `key` is absent from the loaded expansions mapping, and
when `key` is present it returns true exactly when the mapping's value
for `key` equals one of the acceptable values. -/
theorem C6_has_unknown_key_and_membership (b : CurrentBuildInfo) (key : String)
    (vs : List Yaml) :
    (b.conts.lookup key = none →
      b.has key (Yaml.list vs) = .error ("Unknown key " ++ key ++ ". Know about "
        ++ String.intercalate ", " (b.conts.map Prod.fst))) ∧
    (∀ actual, b.conts.lookup key = some actual →
      b.has key (Yaml.list vs) = .ok (vs.any (fun v => Yaml.beq actual v))) := by
  constructor
  · intro h
    simp only [CurrentBuildInfo.has, h]
  · intro actual h
    simp only [CurrentBuildInfo.has, h, Yaml.pyIter, except_bind_ok]

/-- Witness for C6 over the expansions `{build_variant: linux}`: the
absent key `mongodb` raises the error naming it, while the present key
`build_variant` answers true for the acceptable list `[linux, osx]`. -/
theorem C6_witness :
    (([("build_variant", Yaml.str "linux")] : List (String × Yaml)).lookup "mongodb" = none ∧
     CurrentBuildInfo.has ⟨[("build_variant", Yaml.str "linux")]⟩ "mongodb"
       (Yaml.list [Yaml.str "standalone"]) =
         .error "Unknown key mongodb. Know about build_variant") ∧
    (([("build_variant", Yaml.str "linux")] : List (String × Yaml)).lookup "build_variant" =
       some (Yaml.str "linux") ∧
     CurrentBuildInfo.has ⟨[("build_variant", Yaml.str "linux")]⟩ "build_variant"
       (Yaml.list [Yaml.str "linux", Yaml.str "osx"]) = .ok true) := by
  constructor
  · exact ⟨rfl, ((C6_has_unknown_key_and_membership ⟨[("build_variant", Yaml.str "linux")]⟩
      "mongodb" [Yaml.str "standalone"]).1 rfl).trans rfl⟩
  · exact ⟨rfl, ((C6_has_unknown_key_and_membership ⟨[("build_variant", Yaml.str "linux")]⟩
      "build_variant" [Yaml.str "linux", Yaml.str "osx"]).2 (Yaml.str "linux") rfl).trans rfl⟩

/-! ### Claim C1 -/

/-- Workload parsed from a file whose `AutoRun` block declares the
empty requirement rule set `Requires: {}`. -/
def cexC1Workload : Workload :=
  { file_path := "src/workloads/scale/Foo.yml"
    is_modified := false
    requires := some (Yaml.map [])
    setups := none }

/-- Counterexample to C1 as stated: this workload declares a
requirement rule set (the empty mapping), so every key/value pair in it
is vacuously satisfied by any build context, yet `variant_tasks` is the
empty list while `all_tasks` is one task — the code treats an empty
`Requires` like an absent one (`if not self.requires`). -/
theorem C1_counterexample :
    Workload.ofContents "src/workloads/scale/Foo.yml" false
        (Yaml.map [("AutoRun", Yaml.map [("Requires", Yaml.map [])])]) = .ok cexC1Workload ∧
    cexC1Workload.requires = some (Yaml.map []) ∧
    cexC1Workload.variant_tasks ⟨[]⟩ = .ok [] ∧
    cexC1Workload.all_tasks = .ok [⟨"foo", none, "src/workloads/scale/Foo.yml"⟩] ∧
    ([] : List GeneratedTask) ≠ [⟨"foo", none, "src/workloads/scale/Foo.yml"⟩] :=
  ⟨rfl, rfl, rfl, rfl, by decide⟩

/-- C1 amended: a workload with no requirements declared, or whose
declared rule set is falsy (in particular the empty mapping), yields an
empty list; for a declared non-empty rule set, `variant_tasks` returns
`all_tasks()` when every key/value pair is satisfied by `build.has`,
and an empty list when every pair answers but at least one is not
satisfied. -/
theorem C1_amended_variant_tasks (w : Workload) (build : CurrentBuildInfo) :
    (w.requires = none → w.variant_tasks build = .ok []) ∧
    (∀ req, w.requires = some req → req.isFalsy = true → w.variant_tasks build = .ok []) ∧
    (∀ items, w.requires = some (Yaml.map items) → items ≠ [] →
      (∀ kv ∈ items, build.has kv.1 kv.2 = .ok true) →
      w.variant_tasks build = w.all_tasks) ∧
    (∀ items tasks, w.requires = some (Yaml.map items) → items ≠ [] →
      w.all_tasks = .ok tasks →
      (∀ kv ∈ items, ∃ bb, build.has kv.1 kv.2 = .ok bb) →
      (∃ kv ∈ items, build.has kv.1 kv.2 = .ok false) →
      w.variant_tasks build = .ok []) := by
  refine ⟨?_, ?_, ?_, ?_⟩
  · intro h
    simp only [Workload.variant_tasks, h]
  · intro req hreq hfal
    simp only [Workload.variant_tasks, hreq, hfal, if_true]
  · intro items hreq hne hall
    have hfal : (Yaml.map items).isFalsy = false := by
      cases items with
      | nil => exact absurd rfl hne
      | cons a l => rfl
    simp only [Workload.variant_tasks, hreq, hfal, Bool.false_eq_true, if_false]
    have htot : ∀ kv ∈ items, ∃ bb, build.has kv.1 kv.2 = .ok bb :=
      fun kv hkv => ⟨true, hall kv hkv⟩
    obtain ⟨r, hr1, hr2⟩ := meetsCriteriaAux_total build items htot true
    have hcond : criteriaCheck (Yaml.map items) build = .ok true := by
      simp only [criteriaCheck, hr1, hr2.mpr hall]
      rfl
    cases hat : w.all_tasks with
    | error e => rw [except_bind_error]
    | ok ts => rw [except_bind_ok, hcond, selectIf_ok_true]
  · intro items tasks hreq hne htasks htot hex
    have hfal : (Yaml.map items).isFalsy = false := by
      cases items with
      | nil => exact absurd rfl hne
      | cons a l => rfl
    simp only [Workload.variant_tasks, hreq, hfal, Bool.false_eq_true, if_false]
    obtain ⟨r, hr1, hr2⟩ := meetsCriteriaAux_total build items htot true
    have hr : r = false := by
      cases hrv : r with
      | false => rfl
      | true =>
        obtain ⟨kv, hkv, hfalse⟩ := hex
        have := hr2.mp hrv kv hkv
        rw [hfalse] at this
        exact absurd (Except.ok.inj this) (by decide)
    have hcond : criteriaCheck (Yaml.map items) build = .ok false := by
      simp only [criteriaCheck, hr1, hr]
      rfl
    rw [htasks, except_bind_ok, hcond, selectIf_ok_false]

/-- Workload with the non-empty rule set
`Requires: {build_variant: [linux]}`, for the C1 witness. -/
def exampleWorkloadC1 : Workload :=
  { file_path := "src/workloads/scale/Bar.yml"
    is_modified := false
    requires := some (Yaml.map [("build_variant", Yaml.list [Yaml.str "linux"])])
    setups := none }

/-- Witness for C1 (amended): under expansions
`{build_variant: linux}` the single requirement pair is satisfied and
`variant_tasks` equals `all_tasks`, which computes to the one task
`bar`. -/
theorem C1_witness :
    exampleWorkloadC1.requires =
      some (Yaml.map [("build_variant", Yaml.list [Yaml.str "linux"])]) ∧
    exampleWorkloadC1.variant_tasks ⟨[("build_variant", Yaml.str "linux")]⟩ =
      exampleWorkloadC1.all_tasks ∧
    exampleWorkloadC1.all_tasks = .ok [⟨"bar", none, "src/workloads/scale/Bar.yml"⟩] := by
  refine ⟨rfl, ?_, rfl⟩
  refine (C1_amended_variant_tasks exampleWorkloadC1
    ⟨[("build_variant", Yaml.str "linux")]⟩).2.2.1
    [("build_variant", Yaml.list [Yaml.str "linux"])] rfl (List.cons_ne_nil _ _) ?_
  intro kv hkv
  rw [List.mem_singleton.mp hkv]
  rfl

/-! ### Claim C2 -/

/-- Counterexample to C2 as stated: a `PrepareEnvironmentWith` block
whose single `mongodb_setup` entry holds a plain string — not a list —
is accepted by construction (the value's shape is never checked), while
the claim says any non-list value is rejected. -/
theorem C2_counterexample :
    Workload.ofContents "src/workloads/scale/Baz.yml" false
        (Yaml.map [("AutoRun", Yaml.map
          [("Requires", Yaml.map [("build_variant", Yaml.list [Yaml.str "linux"])]),
           ("PrepareEnvironmentWith", Yaml.map [("mongodb_setup", Yaml.str "notalist")])])]) =
      .ok { file_path := "src/workloads/scale/Baz.yml"
            is_modified := false
            requires := some (Yaml.map [("build_variant", Yaml.list [Yaml.str "linux"])])
            setups := some (Yaml.str "notalist") } := rfl

/-- C2 amended: a `PrepareEnvironmentWith` mapping fails construction
with the descriptive error naming the offending file exactly when it
does not consist of one entry under the key `mongodb_setup`; when it
does, the entry's value is accepted as the setups unchecked (a non-list
value is not rejected). -/
theorem C2_amended_prepare_validation (fp : String) (im : Bool)
    (conts auto_run prep : List (String × Yaml)) (req : Yaml)
    (hc : conts.lookup "AutoRun" = some (Yaml.map auto_run))
    (hr : auto_run.lookup "Requires" = some req)
    (hp : auto_run.lookup "PrepareEnvironmentWith" = some (Yaml.map prep)) :
    ((prep.length ≠ 1 ∨ prep.lookup "mongodb_setup" = none) →
      Workload.ofContents fp im (Yaml.map conts) =
        .error ("ValueError: Need exactly mongodb_setup: [list] "
          ++ "in PrepareEnvironmentWith for file " ++ fp)) ∧
    (∀ v, prep = [("mongodb_setup", v)] →
      Workload.ofContents fp im (Yaml.map conts) =
        .ok { file_path := fp, is_modified := im, requires := some req, setups := some v }) := by
  have h1 : (Yaml.map conts).pyContains "AutoRun" = .ok true := by
    simp only [Yaml.pyContains, any_key_of_lookup_some hc]
  have h2 : (Yaml.map conts).pySubscript "AutoRun" = .ok (Yaml.map auto_run) := by
    simp only [Yaml.pySubscript, hc]
  have h3 : (Yaml.map auto_run).pySubscript "Requires" = .ok req := by
    simp only [Yaml.pySubscript, hr]
  have h4 : (Yaml.map auto_run).pyContains "PrepareEnvironmentWith" = .ok true := by
    simp only [Yaml.pyContains, any_key_of_lookup_some hp]
  have h5 : (Yaml.map auto_run).pySubscript "PrepareEnvironmentWith" = .ok (Yaml.map prep) := by
    simp only [Yaml.pySubscript, hp]
  have hopen : Workload.ofContents fp im (Yaml.map conts) =
      (if (prep.length != 1) = true then
        Except.error ("ValueError: Need exactly mongodb_setup: [list] "
          ++ "in PrepareEnvironmentWith for file " ++ fp)
      else do
        let hasKey ← (Yaml.map prep).pyContains "mongodb_setup"
        if !hasKey then
          Except.error ("ValueError: Need exactly mongodb_setup: [list] "
            ++ "in PrepareEnvironmentWith for file " ++ fp)
        else do
          let setups ← (Yaml.map prep).pySubscript "mongodb_setup"
          pure { file_path := fp, is_modified := im,
                 requires := some req, setups := some setups }) := by
    simp only [Workload.ofContents, h1, except_bind_ok, Bool.not_true, Bool.false_eq_true,
      if_false, h2, h3, h4, h5, Yaml.pyLen]
    rfl
  constructor
  · intro hbad
    rw [hopen]
    by_cases hl : prep.length = 1
    · have hlookup : prep.lookup "mongodb_setup" = none := by
        rcases hbad with hb | hb
        · exact absurd hl hb
        · exact hb
      have hne : (prep.length != 1) = false := by simp [hl]
      rw [hne]
      simp only [Bool.false_eq_true, if_false, Yaml.pyContains,
        any_key_of_lookup_none hlookup, except_bind_ok, Bool.not_false, if_true]
    · have hne : (prep.length != 1) = true := by simpa using hl
      rw [hne]
      simp only [if_true]
  · intro v hv
    rw [hopen, hv]
    rfl

/-- Witness for C2 (amended): a `PrepareEnvironmentWith` block holding
the single entry `wrong_key: []` fails construction with the error
naming the file. -/
theorem C2_witness :
    (([("AutoRun", Yaml.map
        [("Requires", Yaml.map []),
         ("PrepareEnvironmentWith", Yaml.map [("wrong_key", Yaml.list [])])])] :
      List (String × Yaml)).lookup "AutoRun" = some (Yaml.map
        [("Requires", Yaml.map []),
         ("PrepareEnvironmentWith", Yaml.map [("wrong_key", Yaml.list [])])])) ∧
    (([("wrong_key", Yaml.list [])] : List (String × Yaml)).lookup "mongodb_setup" = none) ∧
    Workload.ofContents "src/workloads/scale/Qux.yml" true
        (Yaml.map [("AutoRun", Yaml.map
          [("Requires", Yaml.map []),
           ("PrepareEnvironmentWith", Yaml.map [("wrong_key", Yaml.list [])])])]) =
      .error ("ValueError: Need exactly mongodb_setup: [list] "
        ++ "in PrepareEnvironmentWith for file src/workloads/scale/Qux.yml") := by
  refine ⟨rfl, rfl, ?_⟩
  exact ((C2_amended_prepare_validation "src/workloads/scale/Qux.yml" true
    [("AutoRun", Yaml.map
      [("Requires", Yaml.map []),
       ("PrepareEnvironmentWith", Yaml.map [("wrong_key", Yaml.list [])])])]
    [("Requires", Yaml.map []),
     ("PrepareEnvironmentWith", Yaml.map [("wrong_key", Yaml.list [])])]
    [("wrong_key", Yaml.list [])] (Yaml.map []) rfl rfl rfl).1 (Or.inr rfl)).trans (by rfl)

/-! ### Claim C10 -/

/-- C10: a present `AutoRun` block makes `Requires` mandatory —
construction performs a bare subscript that raises an uncaught lookup
error when the sub-key is missing — while `PrepareEnvironmentWith`
stays optional (with `Requires` present and no setup block,
construction succeeds). -/
theorem C10_requires_mandatory (fp : String) (im : Bool)
    (conts auto_run : List (String × Yaml))
    (hc : conts.lookup "AutoRun" = some (Yaml.map auto_run)) :
    (auto_run.lookup "Requires" = none →
      Workload.ofContents fp im (Yaml.map conts) = .error "KeyError: Requires") ∧
    (∀ req, auto_run.lookup "Requires" = some req →
      auto_run.lookup "PrepareEnvironmentWith" = none →
      Workload.ofContents fp im (Yaml.map conts) =
        .ok { file_path := fp, is_modified := im, requires := some req, setups := none }) := by
  have h1 : (Yaml.map conts).pyContains "AutoRun" = .ok true := by
    simp only [Yaml.pyContains, any_key_of_lookup_some hc]
  have h2 : (Yaml.map conts).pySubscript "AutoRun" = .ok (Yaml.map auto_run) := by
    simp only [Yaml.pySubscript, hc]
  constructor
  · intro hr
    have h3 : (Yaml.map auto_run).pySubscript "Requires" = .error "KeyError: Requires" := by
      simp only [Yaml.pySubscript, hr]
      rfl
    simp only [Workload.ofContents, h1, except_bind_ok, Bool.not_true, Bool.false_eq_true,
      if_false, h2, h3, except_bind_error]
  · intro req hr hp
    have h3 : (Yaml.map auto_run).pySubscript "Requires" = .ok req := by
      simp only [Yaml.pySubscript, hr]
    have h4 : (Yaml.map auto_run).pyContains "PrepareEnvironmentWith" = .ok false := by
      simp only [Yaml.pyContains, any_key_of_lookup_none hp]
    simp only [Workload.ofContents, h1, except_bind_ok, Bool.not_true, Bool.false_eq_true,
      if_false, h2, h3, h4]
    rfl

/-- Witness for C10: the document
`{AutoRun: {PrepareEnvironmentWith: {mongodb_setup: [a]}}}` — an
`AutoRun` block with no `Requires` — raises `KeyError: Requires`, while
`{AutoRun: {Requires: {}}}` constructs fine without a setup block. -/
theorem C10_witness :
    (([("AutoRun", Yaml.map
        [("PrepareEnvironmentWith", Yaml.map [("mongodb_setup", Yaml.list [Yaml.str "a"])])])] :
      List (String × Yaml)).lookup "AutoRun" = some (Yaml.map
        [("PrepareEnvironmentWith", Yaml.map [("mongodb_setup", Yaml.list [Yaml.str "a"])])]) ∧
     ([("PrepareEnvironmentWith", Yaml.map [("mongodb_setup", Yaml.list [Yaml.str "a"])])] :
      List (String × Yaml)).lookup "Requires" = none ∧
     Workload.ofContents "src/workloads/scale/NoReq.yml" false
       (Yaml.map [("AutoRun", Yaml.map
         [("PrepareEnvironmentWith", Yaml.map [("mongodb_setup", Yaml.list [Yaml.str "a"])])])]) =
       .error "KeyError: Requires") ∧
    Workload.ofContents "src/workloads/scale/OnlyReq.yml" false
        (Yaml.map [("AutoRun", Yaml.map [("Requires", Yaml.map [])])]) =
      .ok { file_path := "src/workloads/scale/OnlyReq.yml", is_modified := false,
            requires := some (Yaml.map []), setups := none } := by
  refine ⟨⟨rfl, rfl, ?_⟩, ?_⟩
  · exact (C10_requires_mandatory "src/workloads/scale/NoReq.yml" false
      [("AutoRun", Yaml.map
        [("PrepareEnvironmentWith", Yaml.map [("mongodb_setup", Yaml.list [Yaml.str "a"])])])]
      [("PrepareEnvironmentWith", Yaml.map [("mongodb_setup", Yaml.list [Yaml.str "a"])])]
      rfl).1 rfl
  · exact (C10_requires_mandatory "src/workloads/scale/OnlyReq.yml" false
      [("AutoRun", Yaml.map [("Requires", Yaml.map [])])]
      [("Requires", Yaml.map [])] rfl).2 (Yaml.map []) rfl rfl

/-! ### Claim C3 -/

/-- Clearing the requirement rule set never changes `all_tasks`. -/
theorem all_tasks_clearRequires (w : Workload) :
    Workload.all_tasks { w with requires := none } = w.all_tasks := rfl

/-- When every workload's `all_tasks` answers, the flattening
comprehension concatenates them in order. -/
theorem tasksOfWorkloads_ok (f : Workload → List GeneratedTask) :
    ∀ l : List Workload, (∀ w ∈ l, w.all_tasks = .ok (f w)) →
      tasksOfWorkloads l = .ok ((l.map f).flatten) := by
  intro l
  induction l with
  | nil => intro _; rfl
  | cons w ws ih =>
    intro h
    simp only [tasksOfWorkloads, h w (by simp), except_bind_ok,
      ih (fun x hx => h x (List.mem_cons_of_mem _ hx)), List.map_cons, List.flatten_cons]

/-- Clearing requirement rule sets commutes with restricting to the
modified workloads. -/
theorem filter_modified_map_clear (l : List Workload) :
    (l.map (fun w => { w with requires := none })).filter (fun w => w.is_modified) =
      (l.filter (fun w => w.is_modified)).map (fun w => { w with requires := none }) := by
  induction l with
  | nil => rfl
  | cons w ws ih =>
    simp only [List.map_cons, List.filter_cons]
    have hmod : ({ w with requires := none } : Workload).is_modified = w.is_modified := rfl
    rw [hmod]
    cases hm : w.is_modified with
    | true => simp only [hm, if_true, List.map_cons, ih]
    | false => simp only [hm, Bool.false_eq_true, if_false, ih]

/-- Clearing requirement rule sets never changes the flattened task
comprehension. -/
theorem tasksOfWorkloads_map_clear (l : List Workload) :
    tasksOfWorkloads (l.map (fun w => { w with requires := none })) = tasksOfWorkloads l := by
  induction l with
  | nil => rfl
  | cons w ws ih => simp only [List.map_cons, tasksOfWorkloads, all_tasks_clearRequires, ih]

/-- C3: `patch_tasks()` is exactly the concatenation of `all_tasks()`
over the workloads flagged modified — tasks of unmodified workloads are
excluded — and it applies no requirement filtering: erasing every
workload's `Requires` block leaves `patch_tasks()` unchanged. -/
theorem C3_patch_tasks_modified_only (r : Repo) (f : Workload → List GeneratedTask)
    (h : ∀ w ∈ r.all_workloads, w.all_tasks = .ok (f w)) :
    r.patch_tasks = .ok (((r.all_workloads.filter (fun w => w.is_modified)).map f).flatten) ∧
    r.patch_tasks =
      Repo.patch_tasks ⟨r.all_workloads.map (fun w => { w with requires := none })⟩ := by
  constructor
  · exact tasksOfWorkloads_ok f _
      (fun w hw => h w (List.mem_of_mem_filter hw))
  · show tasksOfWorkloads _ = tasksOfWorkloads _
    simp only [Repo.modified_workloads, filter_modified_map_clear, tasksOfWorkloads_map_clear]

/-- Modified workload with a requirement block, for the C3 witness. -/
def exampleModifiedWorkload : Workload :=
  { file_path := "src/workloads/a/ModifiedOne.yml"
    is_modified := true
    requires := some (Yaml.map [("mongodb", Yaml.list [Yaml.str "standalone"])])
    setups := none }

/-- Unmodified workload, for the C3 witness. -/
def exampleUnmodifiedWorkload : Workload :=
  { file_path := "src/workloads/a/OtherOne.yml"
    is_modified := false
    setups := none }

/-- Per-workload task list of the C3 witness repo. -/
def exampleTasksFn : Workload → List GeneratedTask :=
  fun w => [⟨to_snake_case w.file_base_name, none, w.file_path⟩]

/-- Witness for C3: in a repo with one modified workload (which carries
a requirement block) and one unmodified workload, `patch_tasks` is
exactly the modified workload's task, requirement block notwithstanding. -/
theorem C3_witness :
    (∀ w ∈ (Repo.mk [exampleModifiedWorkload, exampleUnmodifiedWorkload]).all_workloads,
      w.all_tasks = .ok (exampleTasksFn w)) ∧
    (Repo.mk [exampleModifiedWorkload, exampleUnmodifiedWorkload]).patch_tasks =
      .ok [⟨"modified_one", none, "src/workloads/a/ModifiedOne.yml"⟩] := by
  have hh : ∀ w ∈ (Repo.mk [exampleModifiedWorkload, exampleUnmodifiedWorkload]).all_workloads,
      w.all_tasks = .ok (exampleTasksFn w) := by
    intro w hw
    rcases List.mem_cons.mp hw with rfl | hw2
    · rfl
    · rw [List.mem_singleton] at hw2
      subst hw2
      rfl
  refine ⟨hh, ?_⟩
  exact ((C3_patch_tasks_modified_only
    (Repo.mk [exampleModifiedWorkload, exampleUnmodifiedWorkload]) exampleTasksFn hh).1).trans rfl

/-! ### Claim C8 -/

/-- When every path in the list that passes the existence check also
resolves through the workspace root (true when the workspace root is
the working directory, as documented), the `load_set` loop cannot fail
and folds up the keyed mapping. -/
theorem load_set_aux_ok (fs : FileSystem) (root : String) :
    ∀ (fl : List String) (out : List (String × Yaml)),
      (∀ f ∈ fl, (fs.resolve (osPathJoin root f)).isSome = true) →
      YamlReader.load_set_aux fs root out fl =
        .ok (fl.foldl (fun acc f => YamlReader.dictInsert acc (stripYml (osPathBasename f))
          ((fs.resolve (osPathJoin root f)).getD Yaml.null)) out) := by
  intro fl
  induction fl with
  | nil => intro out _; rfl
  | cons f rest ih =>
    intro out h
    obtain ⟨doc, hdoc⟩ := Option.isSome_iff_exists.mp (h f (by simp))
    simp only [YamlReader.load_set_aux, YamlReader.load, hdoc, except_bind_ok,
      List.foldl_cons, Option.getD_some]
    exact ih _ (fun x hx => h x (List.mem_cons_of_mem _ hx))

/-- C8: `load` fails with the "file not found" error naming the joined
path whenever the workspace root joined with the relative path resolves
to no file, while `load_set` never fails on missing paths: it drops the
input paths that do not exist and returns the mapping keyed by each
loaded file's base name with its extension stripped.  (The `load_set`
half assumes each surviving path also resolves through the workspace
root, which holds when the workspace root is the effective working
directory, as `load`'s contract documents.) -/
theorem C8_load_fails_load_set_skips (fs : FileSystem) (root path : String)
    (files : List String) :
    (fs.resolve (osPathJoin root path) = none →
      YamlReader.load fs root path =
        .error ("File " ++ osPathJoin root path ++ " not found.")) ∧
    ((∀ f ∈ files, YamlReader.existsPath fs f = true →
        (fs.resolve (osPathJoin root f)).isSome = true) →
      YamlReader.load_set fs root files =
        .ok ((files.filter (fun f => YamlReader.existsPath fs f)).foldl
          (fun acc f => YamlReader.dictInsert acc (stripYml (osPathBasename f))
            ((fs.resolve (osPathJoin root f)).getD Yaml.null)) [])) := by
  constructor
  · intro h
    simp only [YamlReader.load, h]
  · intro h
    refine (load_set_aux_ok fs root _ [] ?_)
    intro f hf
    have hmem := List.mem_filter.mp hf
    exact h f hmem.1 hmem.2

/-- File system of the C8 witness: working directory `/w` holding only
`/w/expansions.yml`. -/
def exampleFS : FileSystem :=
  { cwd := "/w"
    contents := fun p =>
      if p = "/w/expansions.yml" then some (Yaml.map [("build_variant", Yaml.str "linux")])
      else none }

/-- Witness for C8: loading the missing `bootstrap.yml` fails naming
`/w/bootstrap.yml`, while `load_set` over `[expansions.yml,
bootstrap.yml]` silently drops the missing path and returns the one
document keyed `expansions`. -/
theorem C8_witness :
    (exampleFS.resolve (osPathJoin "/w" "bootstrap.yml") = none ∧
     YamlReader.load exampleFS "/w" "bootstrap.yml" =
       .error "File /w/bootstrap.yml not found.") ∧
    ((∀ f ∈ ["expansions.yml", "bootstrap.yml"], YamlReader.existsPath exampleFS f = true →
        (exampleFS.resolve (osPathJoin "/w" f)).isSome = true) ∧
     YamlReader.load_set exampleFS "/w" ["expansions.yml", "bootstrap.yml"] =
       .ok [("expansions", Yaml.map [("build_variant", Yaml.str "linux")])]) := by
  constructor
  · refine ⟨rfl, ?_⟩
    exact ((C8_load_fails_load_set_skips exampleFS "/w" "bootstrap.yml" []).1 rfl).trans rfl
  · refine ⟨by decide, ?_⟩
    exact ((C8_load_fails_load_set_skips exampleFS "/w" "" 
      ["expansions.yml", "bootstrap.yml"]).2 (by decide)).trans rfl

/-! ### Claim C9 -/

/-- C9: every mode token other than the three recognized ones is
silently treated as ALL mode: `CLIOperation.create` returns mode
`ALL_TASKS` with no variant and raises nothing, whatever the file
system holds (it never even reads `expansions.yml`). -/
theorem C9_unknown_mode_is_all_tasks (mode_name : String) (fs : FileSystem)
    (genny_repo_root workspace_root : String)
    (h1 : mode_name ≠ "all_tasks") (h2 : mode_name ≠ "patch_tasks")
    (h3 : mode_name ≠ "variant_tasks") :
    CLIOperation.create mode_name fs genny_repo_root workspace_root =
      .ok { mode := OpName.ALL_TASKS, variant := none,
            genny_repo_root := genny_repo_root, workspace_root := workspace_root } := by
  have e1 : (mode_name == "all_tasks") = false := beq_eq_false_iff_ne.mpr h1
  have e2 : (mode_name == "patch_tasks") = false := beq_eq_false_iff_ne.mpr h2
  have e3 : (mode_name == "variant_tasks") = false := beq_eq_false_iff_ne.mpr h3
  simp only [CLIOperation.create, e1, e2, e3, Bool.false_eq_true, if_false]
  rfl

/-- Witness for C9: the unrecognized token `bogus_mode` yields ALL mode
with no variant over a file system with no files at all — no error is
raised even though `expansions.yml` does not exist. -/
theorem C9_witness :
    ("bogus_mode" ≠ "all_tasks" ∧ "bogus_mode" ≠ "patch_tasks" ∧
     "bogus_mode" ≠ "variant_tasks") ∧
    CLIOperation.create "bogus_mode" { cwd := "/w", contents := fun _ => none } "/g" "/w" =
      .ok { mode := OpName.ALL_TASKS, variant := none,
            genny_repo_root := "/g", workspace_root := "/w" } :=
  ⟨⟨by decide, by decide, by decide⟩,
   C9_unknown_mode_is_all_tasks "bogus_mode" { cwd := "/w", contents := fun _ => none }
     "/g" "/w" (by decide) (by decide) (by decide)⟩
